import Mathlib

/-!
Verification development for the dv1580_a2 arena allocator.

The repository contains several C variants of the same allocator:
* `memory_manager.c` (first variant): colocated block headers inside the data
  pool, request sizes rounded up with `ALIGN`, split threshold `size + 8`,
  free with explicit next/prev merging, no locking.  Modelled in `MMA`.
* `part_001` (first variant): colocated headers, a pthread mutex around each
  operation, allocation condition `size + sizeof(Block)`, free with a full
  coalescing sweep over the list, resize with explicit null/zero cases.
  Modelled in `MMB`, together with the sequence of lock/unlock operations
  each call issues.
* `part_002`: headers in a separate header pool, each carrying a `data`
  pointer into the data pool; `mem_alloc(0)` returns the first free block's
  data pointer.  Modelled in `MMC` (`mem_init`/`mem_alloc`, the functions the
  claims about this variant need).

Modelling conventions:
* Pointers are byte offsets (`Nat`); the data pool starts at offset 0.
  C's `NULL` is `Option.none`; a non-null pointer is `some offset` (after a
  successful `mem_init`, `memory_pool` itself is non-null, so offset 0 still
  denotes a non-null C pointer).
* `sizeof(Block)` is 24 (LP64: 8-byte `size_t`, `int` padded to 8, 8-byte
  pointer), the constant `HDR`.
* Block headers are modelled as an association list from header offset to
  header contents; every header ever written stays at its offset, exactly as
  the bytes stay in the C pool, and a write to an offset replaces the header
  there.  Headers in these traces live at offsets that are multiples of 8
  carved consecutively, so header writes alias only whole headers.
* Payload bytes are the function `State.mem`; `memcpy` is an atomic copy
  from the pre-call bytes.  Header writes do not alias `mem` in the model.
* Reading a header at an offset where none was ever written, or
  dereferencing `NULL`, is undefined behaviour in C; operations return
  `Option.none` ("fault") there.  Every list traversal takes fuel and also
  returns `none` when the fuel runs out, which only happens on cyclic or
  unterminated chains.
* C pointer comparisons such as `current->next_block < block_to_free`
  compare addresses.  `NULL` is address 0 and the `malloc`ed pool starts at
  a positive address, so `NULL` compares strictly below every header pointer
  (`nextBelow`), while a header pointer never compares below `NULL`
  (`addrOrZero` covers `block_to_free < free_list`).
* `size_t` arithmetic that can wrap is modelled exactly where it can wrap:
  `sub64` for subtraction and `ALIGN64` for the macro's `size + 7` at the
  top of the `size_t` range.  `MMA` uses the unbounded `ALIGN`, which agrees
  with `ALIGN64` for every request below `2^64 - 7`; `MMA64` is the same
  allocator with the wrapping macro, for the claim where the wrap matters.
-/

/-- Header size: `sizeof(Block)` on an LP64 platform. -/
def HDR : Nat := 24

/-- The C macro `ALIGN(size) = ((size + sizeof(void*) - 1) & ~(sizeof(void*) - 1))`
with 8-byte pointers: round up to the next multiple of 8. -/
def ALIGN (n : Nat) : Nat := (n + 7) - (n + 7) % 8

theorem ALIGN_mod_eight (n : Nat) : ALIGN n % 8 = 0 := by
  unfold ALIGN; omega

theorem le_ALIGN (n : Nat) : n ≤ ALIGN n := by
  unfold ALIGN; omega

theorem ALIGN_lt (n : Nat) : ALIGN n < n + 8 := by
  unfold ALIGN; omega

/-- The `ALIGN` macro with the full `size_t` wrap-around: `size + 7` is
computed mod `2^64` before the mask clears the low three bits.  For the
seven top values of `size_t` (`size + 7 >= 2^64`) the sum wraps and the
macro yields 0 instead of rounding up. -/
def ALIGN64 (n : Nat) : Nat := (n + 7) % 2 ^ 64 - (n + 7) % 2 ^ 64 % 8

theorem ALIGN64_eq_ALIGN {n : Nat} (h : n + 7 < 2 ^ 64) :
    ALIGN64 n = ALIGN n := by
  unfold ALIGN64 ALIGN
  rw [Nat.mod_eq_of_lt h]

theorem ALIGN64_mod_eight (n : Nat) : ALIGN64 n % 8 = 0 := by
  unfold ALIGN64; omega

/-- Wrapping 64-bit subtraction (`size_t` arithmetic). -/
def sub64 (a b : Nat) : Nat := (a + (2 ^ 64 - b % 2 ^ 64)) % 2 ^ 64

theorem sub64_of_le {a b : Nat} (hb : b ≤ a) (ha : a < 2 ^ 64) :
    sub64 a b = a - b := by
  unfold sub64
  have hb' : b < 2 ^ 64 := lt_of_le_of_lt hb ha
  rw [Nat.mod_eq_of_lt hb']
  have : a + (2 ^ 64 - b) = (a - b) + 2 ^ 64 := by omega
  rw [this, Nat.add_mod_right, Nat.mod_eq_of_lt (by omega)]

/-- The C `struct Block` of the colocated variants: payload size, free flag,
and pointer to the next header (`none` = `NULL`). -/
structure Block where
  size_of_block : Nat
  is_free : Bool
  next_block : Option Nat
deriving DecidableEq, Repr

/-- Allocator state shared by the colocated variants: capacity of the
`malloc`ed pool, the `free_list` head pointer, the headers currently written
in the pool, and the payload bytes. -/
structure State where
  pool_size : Nat
  free_list : Option Nat
  blocks : List (Nat × Block)
  mem : Nat → Nat

/-- Write a header at an offset: replaces the header already there, or adds
one (a plain store to pool bytes). -/
def hwrite (a : Nat) (v : Block) : List (Nat × Block) → List (Nat × Block)
  | [] => [(a, v)]
  | (b, w) :: t => if a = b then (a, v) :: t else (b, w) :: hwrite a v t

theorem lookup_hwrite_self (a : Nat) (v : Block) (l : List (Nat × Block)) :
    List.lookup a (hwrite a v l) = some v := by
  induction l with
  | nil => simp [hwrite, List.lookup]
  | cons hd t ih =>
    obtain ⟨b, w⟩ := hd
    by_cases h : a = b
    · simp [hwrite, h, List.lookup]
    · have hb : (a == b) = false := beq_eq_false_iff_ne.mpr h
      simp [hwrite, h, List.lookup, hb, ih]

theorem lookup_hwrite_ne (a b : Nat) (v : Block) (l : List (Nat × Block))
    (h : a ≠ b) : List.lookup a (hwrite b v l) = List.lookup a l := by
  have hb : (a == b) = false := beq_eq_false_iff_ne.mpr h
  induction l with
  | nil => simp [hwrite, List.lookup, hb]
  | cons hd t ih =>
    obtain ⟨c, w⟩ := hd
    by_cases hc : b = c
    · subst hc
      simp [hwrite, List.lookup, hb]
    · by_cases hac : a = c <;> simp [hwrite, hc, List.lookup, hac, ih]

/-- Address of a possibly-`NULL` pointer, as the hardware compares it. -/
def addrOrZero : Option Nat → Nat
  | none => 0
  | some a => a

/-- The comparison `next < block_to_free` on real addresses: both headers
live at `memory_pool + offset` with `memory_pool` positive, so `NULL`
(address 0) compares strictly below every header, and two headers compare
by their offsets. -/
def nextBelow : Option Nat → Nat → Bool
  | none, _ => true
  | some a, b => decide (a < b)

/-- The list of headers reachable from a head pointer, in chain order
(the allocator's descriptor set).  `none` when the chain dereferences an
unwritten offset or does not terminate within the fuel. -/
def chainList (fuel : Nat) (cur : Option Nat) (bl : List (Nat × Block)) :
    Option (List (Nat × Block)) :=
  match cur with
  | none => some []
  | some b =>
    match fuel with
    | 0 => none
    | f + 1 =>
      match List.lookup b bl with
      | none => none
      | some cb => (chainList f cb.next_block bl).map (fun t => (b, cb) :: t)

/-- Checks that a chain of descriptors, starting at `start`, tiles memory
contiguously up to `cap`: each region is `[addr, addr + HDR + size)` and the
next one starts exactly where the previous ends. -/
def isPartitionFrom : Nat → List (Nat × Block) → Nat → Bool
  | start, [], cap => decide (start = cap)
  | start, (a, cb) :: t, cap =>
      decide (a = start) && isPartitionFrom (a + HDR + cb.size_of_block) t cap

/-- The partition invariant of the spec: the descriptor chain covers
`[0, capacity)` with no gap and no overlap. -/
def partitionHolds (fuel : Nat) (s : State) : Option Bool :=
  (chainList fuel s.free_list s.blocks).map
    (fun l => isPartitionFrom 0 l s.pool_size)

/-- Does the chain contain two consecutive descriptors that are
address-adjacent (`a + HDR + size = b`) and both free? -/
def hasAdjFree : List (Nat × Block) → Bool
  | (a, x) :: (b, y) :: t =>
      (x.is_free && y.is_free && decide (a + HDR + x.size_of_block = b))
        || hasAdjFree ((b, y) :: t)
  | _ => false

/-- The coalescing invariant check: some pair of address-adjacent descriptors
in the chain is doubly free. -/
def adjFreePair (fuel : Nat) (s : State) : Option Bool :=
  (chainList fuel s.free_list s.blocks).map hasAdjFree

/-! ## MMA: `memory_manager.c`, first variant (colocated, `ALIGN`, no lock) -/

namespace MMA

/-- `mem_init`: `size = ALIGN(size); memory_pool = malloc(size);`
then one free block spanning the pool with
`size_of_block = size - sizeof(Block)` (a `size_t` subtraction). -/
def mem_init (n : Nat) : State :=
  let sz := ALIGN n
  { pool_size := sz
    free_list := some 0
    blocks := [(0, ⟨sub64 sz HDR, true, none⟩)]
    mem := fun _ => 0 }

/-- The free-list scan of `mem_alloc`: first fit on
`is_free && size_of_block >= size`; split when
`size_of_block >= size + 8`, placing the tail header at
`current + sizeof(Block) + size` with size `size_of_block - size`
(the source does not subtract the header here).  Returns `some none` when
the scan reaches `NULL`, and the payload pointer plus updated headers on
success. -/
def allocScan (fuel : Nat) (cur : Option Nat) (sz : Nat)
    (bl : List (Nat × Block)) : Option (Option (Nat × List (Nat × Block))) :=
  match cur with
  | none => some none
  | some b =>
    match fuel with
    | 0 => none
    | f + 1 =>
      match List.lookup b bl with
      | none => none
      | some cb =>
        if cb.is_free && decide (sz ≤ cb.size_of_block) then
          if sz + 8 ≤ cb.size_of_block then
            let nb := b + HDR + sz
            let bl1 := hwrite nb ⟨cb.size_of_block - sz, true, cb.next_block⟩ bl
            -- current->size_of_block = size; current->next_block = new_block;
            -- current->is_free = 0;
            let bl2 := hwrite b ⟨sz, false, some nb⟩ bl1
            some (some (b + HDR, bl2))
          else
            let bl1 := hwrite b ⟨cb.size_of_block, false, cb.next_block⟩ bl
            some (some (b + HDR, bl1))
        else allocScan f cb.next_block sz bl

/-- `mem_alloc`: reject `size == 0`, align the request, scan first fit. -/
def mem_alloc (fuel n : Nat) (s : State) : Option (Option Nat × State) :=
  if n = 0 then some (none, s)
  else
    match allocScan fuel s.free_list (ALIGN n) s.blocks with
    | none => none
    | some none => some (none, s)
    | some (some (p, bl)) => some (some p, { s with blocks := bl })

/-- The insertion walk of `mem_free`:
`while (current && current->next_block < block_to_free) current = current->next_block;`
Walking past the end (`next == NULL`, address 0, compares below `b`) leaves
`current == NULL` and the code then dereferences it: a fault. -/
def freeWalk (fuel : Nat) (bl : List (Nat × Block)) (c b : Nat) : Option Nat :=
  match fuel with
  | 0 => none
  | f + 1 =>
    match List.lookup c bl with
    | none => none
    | some cc =>
      if nextBelow cc.next_block b then
        match cc.next_block with
        | none => none
        | some na => freeWalk f bl na b
      else some c

/-- The final merge of `mem_free`:
`if (current && current->is_free && current + HDR + current->size == block) merge`. -/
def mergePrev (bl : List (Nat × Block)) (cur : Option Nat) (b : Nat)
    (flR : Option Nat) : Option (List (Nat × Block) × Option Nat) :=
  match cur with
  | none => some (bl, flR)
  | some c =>
    match List.lookup c bl with
    | none => none
    | some cc =>
      if cc.is_free && decide (c + HDR + cc.size_of_block = b) then
        match List.lookup b bl with
        | none => none
        | some bfx =>
          some (hwrite c
            ⟨cc.size_of_block + HDR + bfx.size_of_block, cc.is_free,
              bfx.next_block⟩ bl, flR)
      else some (bl, flR)

/-- Body of `mem_free` after the null and double-free guards: mark the block
free, merge with the chain successor if free, insert at the head or after the
walk's stop point, then merge with the stop point if contiguous.
Returns the updated headers and free-list head. -/
def freeCore (fuel b : Nat) (bf0 : Block) (bl0 : List (Nat × Block))
    (fl : Option Nat) : Option (List (Nat × Block) × Option Nat) :=
  let bf1 : Block := ⟨bf0.size_of_block, true, bf0.next_block⟩
  let bl1 := hwrite b bf1 bl0
  let mrg : Option (List (Nat × Block) × Block) :=
    match bf1.next_block with
    | none => some (bl1, bf1)
    | some nb =>
      match List.lookup nb bl1 with
      | none => none
      | some nx =>
        if nx.is_free then
          let bf2 : Block :=
            ⟨bf1.size_of_block + HDR + nx.size_of_block, true, nx.next_block⟩
          some (hwrite b bf2 bl1, bf2)
        else some (bl1, bf1)
  match mrg with
  | none => none
  | some (bl2, bf2) =>
    if b < addrOrZero fl then
      -- block_to_free->next_block = free_list; free_list = block_to_free;
      let bl3 := hwrite b ⟨bf2.size_of_block, bf2.is_free, fl⟩ bl2
      mergePrev bl3 fl b (some b)
    else
      match fl with
      | none => none   -- current == NULL, then current->next_block faults
      | some hd =>
        match freeWalk fuel bl2 hd b with
        | none => none
        | some c =>
          match List.lookup c bl2 with
          | none => none
          | some cc =>
            -- block_to_free->next_block = current->next_block;
            let bl3 := hwrite b ⟨bf2.size_of_block, bf2.is_free, cc.next_block⟩ bl2
            match List.lookup c bl3 with
            | none => none
            | some cc2 =>
              -- current->next_block = block_to_free;
              let bl4 := hwrite c ⟨cc2.size_of_block, cc2.is_free, some b⟩ bl3
              mergePrev bl4 (some c) b fl

/-- `mem_free`: no-op on `NULL`; recover the header at `block - sizeof(Block)`;
no-op if already free; otherwise run the free/merge/insert body. -/
def mem_free (fuel : Nat) (block : Option Nat) (s : State) : Option State :=
  match block with
  | none => some s
  | some p =>
    match List.lookup (p - HDR) s.blocks with
    | none => none
    | some bf0 =>
      if bf0.is_free then some s
      else
        match freeCore fuel (p - HDR) bf0 s.blocks s.free_list with
        | none => none
        | some (bl, fl) => some { s with blocks := bl, free_list := fl }

/-- `mem_resize`: `NULL` delegates to `mem_alloc`; align the request; return
the block unchanged when its capacity already suffices; otherwise allocate,
`memcpy` the old payload, free the old block. -/
def mem_resize (fuel : Nat) (block : Option Nat) (n : Nat) (s : State) :
    Option (Option Nat × State) :=
  match block with
  | none => mem_alloc fuel n s
  | some p =>
    let sz := ALIGN n
    match List.lookup (p - HDR) s.blocks with
    | none => none
    | some old =>
      if sz ≤ old.size_of_block then some (some p, s)
      else
        match mem_alloc fuel sz s with
        | none => none
        | some (none, s1) => some (none, s1)
        | some (some q, s1) =>
          let s2 : State :=
            { s1 with mem := fun a =>
                if q ≤ a ∧ a < q + old.size_of_block then s1.mem (p + (a - q))
                else s1.mem a }
          match mem_free fuel (some p) s2 with
          | none => none
          | some s3 => some (some q, s3)

/-- The state with no pool: before `mem_init` or after `mem_deinit`
(`memory_pool = NULL; free_list = NULL;`). -/
def uninit : State :=
  { pool_size := 0, free_list := none, blocks := [], mem := fun _ => 0 }

/-- `mem_deinit`: release the pool and reset the static pointers. -/
def mem_deinit (_s : State) : State := uninit

/-- Run `mem_alloc` for its state effect (harness plumbing for traces). -/
def stepAlloc (fuel n : Nat) (s : State) : State :=
  match mem_alloc fuel n s with
  | some (_, s') => s'
  | none => s

/-- Run `mem_free` for its state effect (harness plumbing for traces). -/
def stepFree (fuel : Nat) (p : Option Nat) (s : State) : State :=
  match mem_free fuel p s with
  | some s' => s'
  | none => s

end MMA

/-! ## MMA64: `memory_manager.c`, first variant, with the wrapping macro

The same allocator as `MMA`, with the `ALIGN` macro evaluated in `size_t`
arithmetic (`ALIGN64`): the only difference is visible for the seven request
sizes whose `size + 7` wraps past `2^64`.  The free-list scan is shared with
`MMA`. -/

namespace MMA64

/-- `mem_init` with the wrapping macro. -/
def mem_init (n : Nat) : State :=
  let sz := ALIGN64 n
  { pool_size := sz
    free_list := some 0
    blocks := [(0, ⟨sub64 sz HDR, true, none⟩)]
    mem := fun _ => 0 }

/-- `mem_alloc` with the wrapping macro: reject `size == 0`, compute
`size = ALIGN(size)` in `size_t`, then run the same first-fit scan. -/
def mem_alloc (fuel n : Nat) (s : State) : Option (Option Nat × State) :=
  if n = 0 then some (none, s)
  else
    match MMA.allocScan fuel s.free_list (ALIGN64 n) s.blocks with
    | none => none
    | some none => some (none, s)
    | some (some (p, bl)) => some (some p, { s with blocks := bl })

end MMA64

/-! ## Lock events

The pthread mutex operations a call issues, in program order.  A non-reentrant
mutex deadlocks when `lock` is issued while the same thread already holds it;
`attemptsRelock` detects that on a trace. -/

/-- One mutex operation. -/
inductive LockEv where
  | lock
  | unlock
deriving DecidableEq, Repr

/-- Starting from `d` held acquisitions, does the trace issue a `lock` while
the mutex is already held? -/
def attemptsRelock : Nat → List LockEv → Bool
  | _, [] => false
  | d, .lock :: t => decide (1 ≤ d) || attemptsRelock (d + 1) t
  | d, .unlock :: t => attemptsRelock (d - 1) t

/-- Starting from `d` held acquisitions: every `unlock` matches a `lock` and
the trace ends with the mutex released. -/
def balancedFrom : Nat → List LockEv → Bool
  | d, [] => decide (d = 0)
  | d, .lock :: t => balancedFrom (d + 1) t
  | d, .unlock :: t => decide (d ≠ 0) && balancedFrom (d - 1) t

/-! ## MMB: `part_001`, first variant (colocated, pthread mutex, sweep free) -/

namespace MMB

/-- `mem_init` of the locked colocated variant: one block spanning the pool
with `size_of_block = size` (the header is not subtracted here). -/
def mem_init (n : Nat) : State :=
  { pool_size := n
    free_list := some 0
    blocks := [(0, ⟨n, true, none⟩)]
    mem := fun _ => 0 }

/-- The free-list scan of this variant's `mem_alloc`: condition
`is_free && size_of_block >= size + sizeof(Block)`; split when
`size_of_block > size`, tail header at `current + sizeof(Block) + size` with
size `size_of_block - size`. -/
def allocScan (fuel : Nat) (cur : Option Nat) (sz : Nat)
    (bl : List (Nat × Block)) : Option (Option (Nat × List (Nat × Block))) :=
  match cur with
  | none => some none
  | some b =>
    match fuel with
    | 0 => none
    | f + 1 =>
      match List.lookup b bl with
      | none => none
      | some cb =>
        if cb.is_free && decide (sz + HDR ≤ cb.size_of_block) then
          if sz < cb.size_of_block then
            let nb := b + HDR + sz
            let bl1 := hwrite nb ⟨cb.size_of_block - sz, true, cb.next_block⟩ bl
            let bl2 := hwrite b ⟨sz, false, some nb⟩ bl1
            some (some (b + HDR, bl2))
          else
            let bl1 := hwrite b ⟨cb.size_of_block, false, cb.next_block⟩ bl
            some (some (b + HDR, bl1))
        else allocScan f cb.next_block sz bl

/-- `mem_alloc`: reject `size == 0` before taking the lock; lock, scan,
unlock on both the success and the failure path. -/
def mem_alloc (fuel n : Nat) (s : State) :
    Option (Option Nat × State × List LockEv) :=
  if n = 0 then some (none, s, [])
  else
    match allocScan fuel s.free_list n s.blocks with
    | none => none
    | some none => some (none, s, [.lock, .unlock])
    | some (some (p, bl)) =>
        some (some p, { s with blocks := bl }, [.lock, .unlock])

/-- The coalescing sweep of this variant's `mem_free`:
`while (current && current->next) { if both free, merge; current = current->next; }`.
After a merge, `current->next_block` has already been advanced, so the loop
steps past the merged pair. -/
def sweep (fuel : Nat) (cur : Option Nat) (bl : List (Nat × Block)) :
    Option (List (Nat × Block)) :=
  match cur with
  | none => some bl
  | some c =>
    match fuel with
    | 0 => none
    | f + 1 =>
      match List.lookup c bl with
      | none => none
      | some cc =>
        match cc.next_block with
        | none => some bl
        | some na =>
          match List.lookup na bl with
          | none => none
          | some nn =>
            if cc.is_free && nn.is_free then
              let cc2 : Block :=
                ⟨cc.size_of_block + HDR + nn.size_of_block, cc.is_free,
                  nn.next_block⟩
              sweep f nn.next_block (hwrite c cc2 bl)
            else sweep f (some na) bl

/-- `mem_free`: no-op on `NULL` (before the lock); mark the header at
`block - sizeof(Block)` free — there is no already-free guard in this
variant — then run the coalescing sweep from the list head. -/
def mem_free (fuel : Nat) (block : Option Nat) (s : State) :
    Option (State × List LockEv) :=
  match block with
  | none => some (s, [])
  | some p =>
    match List.lookup (p - HDR) s.blocks with
    | none => none
    | some bf =>
      let bl1 := hwrite (p - HDR) ⟨bf.size_of_block, true, bf.next_block⟩ s.blocks
      match sweep fuel s.free_list bl1 with
      | none => none
      | some bl2 => some ({ s with blocks := bl2 }, [.lock, .unlock])

/-- `mem_resize`: `NULL` delegates to `mem_alloc`; `size == 0` delegates to
`mem_free` and returns `NULL` (both before taking the lock); otherwise lock,
and if the block is too small call the public `mem_alloc` — whose own `lock`
is issued while the mutex is already held — copy, call the public `mem_free`,
unlock. -/
def mem_resize (fuel : Nat) (block : Option Nat) (n : Nat) (s : State) :
    Option (Option Nat × State × List LockEv) :=
  match block with
  | none => mem_alloc fuel n s
  | some p =>
    if n = 0 then
      match mem_free fuel (some p) s with
      | none => none
      | some (s1, t) => some (none, s1, t)
    else
      match List.lookup (p - HDR) s.blocks with
      | none => none
      | some old =>
        if n ≤ old.size_of_block then some (some p, s, [.lock, .unlock])
        else
          match mem_alloc fuel n s with
          | none => none
          | some (q, s1, t1) =>
            match q with
            | none => some (none, s1, .lock :: (t1 ++ [.unlock]))
            | some q0 =>
              let s2 : State :=
                { s1 with mem := fun a =>
                    if q0 ≤ a ∧ a < q0 + old.size_of_block then
                      s1.mem (p + (a - q0))
                    else s1.mem a }
              match mem_free fuel (some p) s2 with
              | none => none
              | some (s3, t2) =>
                  some (some q0, s3, .lock :: (t1 ++ t2 ++ [.unlock]))

/-- Run `mem_alloc` for its state effect (harness plumbing for traces). -/
def stepAlloc (fuel n : Nat) (s : State) : State :=
  match mem_alloc fuel n s with
  | some (_, s', _) => s'
  | none => s

/-- Run `mem_free` for its state effect (harness plumbing for traces). -/
def stepFree (fuel : Nat) (p : Option Nat) (s : State) : State :=
  match mem_free fuel p s with
  | some (s', _) => s'
  | none => s

end MMB

/-! ## MMC: `part_002` (separate header pool, `data` pointers) -/

/-- The `struct Block` of the separate-metadata variant: it additionally
carries `data`, the offset of the region's payload in the data pool. -/
structure BlockC where
  size_of_block : Nat
  is_free : Bool
  next_block : Option Nat
  data : Nat
deriving DecidableEq, Repr

/-- State of the separate-metadata variant: header offsets index the header
pool, `data` offsets index the data pool. -/
structure StateC where
  pool_size : Nat
  free_list : Option Nat
  headers : List (Nat × BlockC)
deriving DecidableEq, Repr

/-- Write a header in the header pool. -/
def hwriteC (a : Nat) (v : BlockC) : List (Nat × BlockC) → List (Nat × BlockC)
  | [] => [(a, v)]
  | (b, w) :: t => if a = b then (a, v) :: t else (b, w) :: hwriteC a v t

namespace MMC

/-- `mem_init`: data pool and header pool; the first header spans the whole
pool (`size_of_block = size`) and `data` points at the data pool base. -/
def mem_init (n : Nat) : StateC :=
  { pool_size := n
    free_list := some 0
    headers := [(0, ⟨n, true, none, 0⟩)] }

/-- The `size == 0` scan: return the first free block's `data` pointer, or
`NULL` when no block is free. -/
def allocScanZero (fuel : Nat) (cur : Option Nat)
    (hs : List (Nat × BlockC)) : Option (Option Nat) :=
  match cur with
  | none => some none
  | some b =>
    match fuel with
    | 0 => none
    | f + 1 =>
      match List.lookup b hs with
      | none => none
      | some cb =>
        if cb.is_free then some (some cb.data)
        else allocScanZero f cb.next_block hs

/-- The first-fit scan of this variant: condition
`is_free && size_of_block >= size`; split when
`size_of_block > size + sizeof(Block)`, the tail header going at
`current + sizeof(Block)` in the header pool with `data = data + size`;
the chosen block is unlinked from the free list (via `prev` or the head). -/
def allocScan (fuel : Nat) (cur prev : Option Nat) (sz : Nat)
    (hs : List (Nat × BlockC)) (fl : Option Nat) :
    Option (Option (Nat × List (Nat × BlockC) × Option Nat)) :=
  match cur with
  | none => some none
  | some b =>
    match fuel with
    | 0 => none
    | f + 1 =>
      match List.lookup b hs with
      | none => none
      | some cb =>
        if cb.is_free && decide (sz ≤ cb.size_of_block) then
          let spl :
              List (Nat × BlockC) × Option Nat :=
            if sz + HDR < cb.size_of_block then
              let nb := b + HDR
              let hs1 :=
                hwriteC nb
                  ⟨cb.size_of_block - sz, true, cb.next_block, cb.data + sz⟩ hs
              (hwriteC b ⟨sz, false, some nb, cb.data⟩ hs1, some nb)
            else
              (hwriteC b ⟨cb.size_of_block, false, cb.next_block, cb.data⟩ hs,
                cb.next_block)
          match prev with
          | some pb =>
            match List.lookup pb spl.1 with
            | none => none
            | some pbv =>
              some (some (cb.data,
                hwriteC pb ⟨pbv.size_of_block, pbv.is_free, spl.2, pbv.data⟩ spl.1,
                fl))
          | none => some (some (cb.data, spl.1, spl.2))
        else allocScan f cb.next_block (some b) sz hs fl

/-- `mem_alloc`: for `size == 0`, return the first free block's data pointer;
otherwise first fit with split and unlink. -/
def mem_alloc (fuel n : Nat) (s : StateC) : Option (Option Nat × StateC) :=
  if n = 0 then
    match allocScanZero fuel s.free_list s.headers with
    | none => none
    | some r => some (r, s)
  else
    match allocScan fuel s.free_list none n s.headers s.free_list with
    | none => none
    | some none => some (none, s)
    | some (some (d, hs, fl)) =>
        some (some d, { s with headers := hs, free_list := fl })

end MMC

/-! ## Concrete traces used by the claims -/

/-- `memory_manager.c` variant: `mem_init(64)` then `mem_alloc(8)`.
The split leaves blocks `(0, size 8)` and `(32, size 32)`. -/
def sAlloc8 : State := MMA.stepAlloc 50 8 (MMA.mem_init 64)

/-- `memory_manager.c` variant: `mem_init(64)` then `mem_alloc(40)`:
the single block is taken whole, nothing free remains. -/
def sAlloc40 : State := MMA.stepAlloc 50 40 (MMA.mem_init 64)

/-- Wrapping-macro model of the `memory_manager.c` variant: `mem_init(64)`
then `mem_alloc(3)` (identical to the `MMA` result at these sizes). -/
def sAlloc3 : State :=
  ((MMA64.mem_alloc 50 3 (MMA64.mem_init 64)).getD (none, MMA64.mem_init 64)).2

/-- `part_001` locked variant: `mem_init(200)`. -/
def mmbInit : State := MMB.mem_init 200

/-- After `a = mem_alloc(24)` (payload 24). -/
def mmbA1 : State := MMB.stepAlloc 50 24 mmbInit

/-- After `b = mem_alloc(24)` (payload 72). -/
def mmbA2 : State := MMB.stepAlloc 50 24 mmbA1

/-- After `c = mem_alloc(24)` (payload 120). -/
def mmbA3 : State := MMB.stepAlloc 50 24 mmbA2

/-- After `mem_free(a)`. -/
def mmbF1 : State := MMB.stepFree 50 (some 24) mmbA3

/-- After `mem_free(c)`: blocks `c` and the tail remainder merge. -/
def mmbF2 : State := MMB.stepFree 50 (some 120) mmbF1

/-- After `mem_free(b)`: the sweep merges `a` with `b` and then steps past
the merged block, leaving it adjacent to the free block at 96. -/
def mmbF3 : State := MMB.stepFree 50 (some 72) mmbF2

/-- After calling `mem_free(b)` a second time. -/
def mmbF4 : State := MMB.stepFree 50 (some 72) mmbF3

/-! ## Claim C1 -/

/-- C1: the claim that descriptors always partition `[0, capacity)` fails on
the code: after `mem_init(64); mem_alloc(8)` in `memory_manager.c`, the split
creates a tail block of size `40 - 8 = 32` at offset 32 without subtracting
the header, so the two descriptors claim the regions `[0, 32)` and `[32, 88)`
over a 64-byte pool — the chain extends 24 bytes past the pool and the
partition check fails. -/
theorem c1_partition_violated :
    chainList 50 sAlloc8.free_list sAlloc8.blocks =
      some [(0, ⟨8, false, some 32⟩), (32, ⟨32, true, none⟩)] ∧
    sAlloc8.pool_size = 64 ∧
    partitionHolds 50 sAlloc8 = some false :=
  ⟨by decide, by decide, by decide⟩

/-! ## Claim C2 -/

/-- C2: the claim that no two address-adjacent descriptors are both free
after a completed `free` fails on `part_001`: after
`init(200); a=alloc(24); b=alloc(24); c=alloc(24); free(a); free(c); free(b)`
the coalescing sweep merges `a` with `b` and then advances past the merged
block, leaving the free blocks at offsets 0 (size 72) and 96 (size 176)
address-adjacent (`0 + 24 + 72 = 96`) and both free. -/
theorem c2_adjacent_free_blocks_exist :
    chainList 50 mmbF3.free_list mmbF3.blocks =
      some [(0, ⟨72, true, some 96⟩), (96, ⟨176, true, none⟩)] ∧
    adjFreePair 50 mmbF3 = some true :=
  ⟨by decide, by decide⟩

/-! ## Claim C7 -/

/-- C7: the claim that a second `free` of the same pointer is a no-op fails
on `part_001`, whose `mem_free` has no already-free guard: starting from the
state of `c2_adjacent_free_blocks_exist`, a second `free(b)` completes and
re-runs the coalescing sweep, merging the blocks at 0 and 96 — block 0's
descriptor changes from size 72 to size 272. -/
theorem c7_double_free_mutates :
    (MMB.mem_free 50 (some 72) mmbF3).isSome = true ∧
    List.lookup 0 mmbF3.blocks = some ⟨72, true, some 96⟩ ∧
    List.lookup 0 mmbF4.blocks = some ⟨272, true, none⟩ :=
  ⟨by decide, by decide, by decide⟩

/-! ## Claim C3 -/

/-- C3: counterexample to "alloc(0) returns a null result, never a usable
pointer" — in the `part_002` variant, `mem_alloc(0)` on a freshly initialized
arena returns the first free block's `data` pointer (`memory_pool + 0`, a
non-null pointer), not null. -/
theorem c3_alloc_zero_returns_pointer :
    MMC.mem_alloc 50 0 (MMC.mem_init 64) = some (some 0, MMC.mem_init 64) := by
  decide

/-- The headers reachable from a head pointer in the `part_002` layout, in
chain order. -/
def chainListC (fuel : Nat) (cur : Option Nat) (hs : List (Nat × BlockC)) :
    Option (List (Nat × BlockC)) :=
  match cur with
  | none => some []
  | some b =>
    match fuel with
    | 0 => none
    | f + 1 =>
      match List.lookup b hs with
      | none => none
      | some cb => (chainListC f cb.next_block hs).map (fun t => (b, cb) :: t)

/-- Modelled from the spec's words for the zero-size behaviour of the
`part_002` variant: the `data` pointer of the first free descriptor of the
chain, or null when no descriptor is free. -/
def firstFreeData : List (Nat × BlockC) → Option Nat
  | [] => none
  | (_, cb) :: t => if cb.is_free then some cb.data else firstFreeData t

/-- The `size == 0` scan of `part_002` computes exactly `firstFreeData` of
the descriptor chain, whatever state the arena is in. -/
theorem mmc_allocScanZero_chain (fuel : Nat) :
    ∀ (cur : Option Nat) (hs : List (Nat × BlockC)) (l : List (Nat × BlockC)),
      chainListC fuel cur hs = some l →
      MMC.allocScanZero fuel cur hs = some (firstFreeData l) := by
  induction fuel with
  | zero =>
    intro cur hs l h
    cases cur with
    | none =>
      simp only [chainListC, Option.some.injEq] at h
      subst h
      rfl
    | some b => exact absurd h (by simp [chainListC])
  | succ f ih =>
    intro cur hs l h
    cases cur with
    | none =>
      simp only [chainListC, Option.some.injEq] at h
      subst h
      rfl
    | some b =>
      simp only [chainListC] at h
      cases hlk : List.lookup b hs with
      | none => rw [hlk] at h; exact absurd h (by simp)
      | some cb =>
        rw [hlk] at h
        simp only at h
        cases hrest : chainListC f cb.next_block hs with
        | none => rw [hrest] at h; exact absurd h (by simp)
        | some t =>
          rw [hrest] at h
          simp only [Option.map, Option.some.injEq] at h
          subst h
          simp only [MMC.allocScanZero, hlk]
          by_cases hf : cb.is_free
          · simp [hf, firstFreeData]
          · simp [hf, firstFreeData, ih cb.next_block hs t hrest]

/-- C3 (amended): in the `memory_manager.c` variant `mem_alloc(0)` returns
null for every state; in the `part_002` variant, for every arena state whose
descriptor chain is `l`, `mem_alloc(0)` returns the first free descriptor's
data pointer, and `firstFreeData l` is null exactly when no descriptor of
the chain is free. -/
theorem c3_alloc_zero_amended :
    (∀ (fuel : Nat) (s : State), MMA.mem_alloc fuel 0 s = some (none, s)) ∧
    (∀ (fuel : Nat) (s : StateC) (l : List (Nat × BlockC)),
       chainListC fuel s.free_list s.headers = some l →
       MMC.mem_alloc fuel 0 s = some (firstFreeData l, s)) ∧
    (∀ l : List (Nat × BlockC),
       firstFreeData l = none ↔ ∀ e ∈ l, e.2.is_free = false) := by
  refine ⟨?_, ?_, ?_⟩
  · intro fuel s
    simp [MMA.mem_alloc]
  · intro fuel s l h
    have hs := mmc_allocScanZero_chain fuel s.free_list s.headers l h
    simp [MMC.mem_alloc, hs]
  · intro l
    induction l with
    | nil => simp [firstFreeData]
    | cons hd t ih =>
      obtain ⟨a, cb⟩ := hd
      by_cases hf : cb.is_free
      · simp [firstFreeData, hf]
      · simp [firstFreeData, hf, ih]

/-- `part_002` arena with its single block allocated: `mem_init(64)` then
`mem_alloc(64)` — the block is taken whole, unlinked, and the free list
becomes empty. -/
def sC3full : StateC :=
  ((MMC.mem_alloc 50 64 (MMC.mem_init 64)).getD (none, MMC.mem_init 64)).2

/-- C3 witness: the amended behaviour at two concrete arenas — a fresh
80-byte arena, whose chain holds one free descriptor, yields its data
pointer; the fully-allocated arena `sC3full`, whose chain holds no free
descriptor, yields null. -/
theorem c3_alloc_zero_amended_witness :
    MMC.mem_alloc 50 0 (MMC.mem_init 80) = some (some 0, MMC.mem_init 80) ∧
    MMC.mem_alloc 50 0 sC3full = some (none, sC3full) :=
  ⟨c3_alloc_zero_amended.2.1 50 (MMC.mem_init 80) [(0, ⟨80, true, none, 0⟩)]
     (by decide),
   c3_alloc_zero_amended.2.1 50 sC3full [] (by decide)⟩

/-! ## Claim C4 -/

/-- C4: counterexample to "resize(p, 0) frees p and returns null" — in
`memory_manager.c`, `mem_resize` has no `size == 0` case: with the live
allocation at payload 24 of `sAlloc8`, `mem_resize(p, 0)` takes the
capacity-sufficient path (`size_of_block >= ALIGN(0) = 0`), returns `p`
itself and leaves the block allocated. -/
theorem c4_resize_zero_returns_pointer :
    (MMA.mem_resize 50 (some 24) 0 sAlloc8).map Prod.fst = some (some 24) ∧
    (MMA.mem_resize 50 (some 24) 0 sAlloc8).map
        (fun r => List.lookup 0 r.2.blocks) =
      some (some ⟨8, false, some 32⟩) :=
  ⟨by decide, by decide⟩

/-- C4 (amended): `resize(null, n)` behaves exactly as `alloc(n)` in both
the `memory_manager.c` and the `part_001` variants; `resize(p, 0)` frees `p`
and returns null in the `part_001` variant, but in `memory_manager.c`
`resize(p, 0)` returns `p` unchanged without freeing it. -/
theorem c4_resize_delegation_amended :
    (∀ (fuel n : Nat) (s : State),
       MMA.mem_resize fuel none n s = MMA.mem_alloc fuel n s) ∧
    (∀ (fuel n : Nat) (s : State),
       MMB.mem_resize fuel none n s = MMB.mem_alloc fuel n s) ∧
    (∀ (fuel p : Nat) (s : State) (old : Block),
       List.lookup (p - HDR) s.blocks = some old →
       MMA.mem_resize fuel (some p) 0 s = some (some p, s)) ∧
    (∀ (fuel p : Nat) (s : State),
       MMB.mem_resize fuel (some p) 0 s =
         (MMB.mem_free fuel (some p) s).map (fun r => (none, r.1, r.2))) := by
  refine ⟨fun fuel n s => rfl, fun fuel n s => rfl, ?_, ?_⟩
  · intro fuel p s old h
    have h0 : ALIGN 0 = 0 := by decide
    simp [MMA.mem_resize, h, h0]
  · intro fuel p s
    simp only [MMB.mem_resize]
    cases MMB.mem_free fuel (some p) s with
    | none => rfl
    | some r => rfl

/-- C4 witness: the amended no-free behaviour of `memory_manager.c` at the
concrete live allocation of `sAlloc8`. -/
theorem c4_resize_delegation_amended_witness :
    MMA.mem_resize 50 (some 24) 0 sAlloc8 = some (some 24, sAlloc8) :=
  c4_resize_delegation_amended.2.2.1 50 24 sAlloc8 ⟨8, false, some 32⟩
    (by decide)

/-! ## Claim C8 -/

/-- C8: counterexample to "free is a no-op while Uninitialized" — in
`memory_manager.c`, `mem_free` of a non-null pointer while the allocator is
uninitialized reads the header at `pointer - sizeof(Block)` in memory the
allocator does not own, and (should that read claim the block is allocated)
goes on to dereference the `NULL` `free_list`; the call faults instead of
no-opping. -/
theorem c8_free_uninitialized_faults :
    MMA.mem_free 50 (some 24) MMA.uninit = none := rfl

/-- C8 (amended): while Uninitialized, `mem_alloc` does return null without
dereferencing the unset state (the scan of the `NULL` free list stops at
once), `mem_free(NULL)` is a no-op, and `mem_resize(NULL, n)` returns null;
but free or resize of a non-null pointer is not safe
(`c8_free_uninitialized_faults`). -/
theorem c8_uninitialized_amended :
    (∀ (fuel n : Nat), MMA.mem_alloc fuel n MMA.uninit = some (none, MMA.uninit)) ∧
    (∀ (fuel : Nat), MMA.mem_free fuel none MMA.uninit = some MMA.uninit) ∧
    (∀ (fuel n : Nat),
       MMA.mem_resize fuel none n MMA.uninit = some (none, MMA.uninit)) := by
  have halloc : ∀ (fuel n : Nat),
      MMA.mem_alloc fuel n MMA.uninit = some (none, MMA.uninit) := by
    intro fuel n
    by_cases h : n = 0 <;> simp [MMA.mem_alloc, h, MMA.allocScan, MMA.uninit]
  exact ⟨halloc, fun fuel => rfl, fun fuel n => halloc fuel n⟩

/-! ## Claim C9 -/

/-- Every completed `part_001` `mem_alloc` call issues either no mutex
operations (the pre-lock `size == 0` rejection) or exactly `lock; unlock`;
with a non-zero request, exactly `lock; unlock`. -/
theorem mmb_alloc_trace (fuel n : Nat) (s : State)
    (r : Option Nat × State × List LockEv)
    (h : MMB.mem_alloc fuel n s = some r) :
    (n = 0 ∧ r.2.2 = []) ∨ r.2.2 = [LockEv.lock, LockEv.unlock] := by
  unfold MMB.mem_alloc at h
  split at h
  · injection h with h
    subst h
    exact Or.inl ⟨by assumption, rfl⟩
  · split at h
    · exact absurd h (by simp)
    · injection h with h
      subst h
      exact Or.inr rfl
    · injection h with h
      subst h
      exact Or.inr rfl

/-- Every completed `part_001` `mem_free` of a non-null pointer issues
exactly `lock; unlock`. -/
theorem mmb_free_trace (fuel p : Nat) (s : State) (r : State × List LockEv)
    (h : MMB.mem_free fuel (some p) s = some r) :
    r.2 = [LockEv.lock, LockEv.unlock] := by
  simp only [MMB.mem_free] at h
  split at h
  · exact absurd h (by simp)
  · split at h
    · exact absurd h (by simp)
    · injection h with h
      subst h
      rfl

/-- C9 (amended): in the `part_001` variant the lock is acquired at entry
and released on every completed exit path of `mem_alloc` and `mem_free`
(their traces are balanced); but `mem_resize`, on its growth path, delegates
to the public locking `mem_alloc`/`mem_free`, so its trace attempts to
re-acquire the mutex it already holds — a self-deadlock on a non-reentrant
lock. -/
theorem c9_lock_discipline_amended :
    (∀ (fuel n : Nat) (s : State) (r : Option Nat × State × List LockEv),
       MMB.mem_alloc fuel n s = some r → balancedFrom 0 r.2.2 = true) ∧
    (∀ (fuel : Nat) (p : Option Nat) (s : State) (r : State × List LockEv),
       MMB.mem_free fuel p s = some r → balancedFrom 0 r.2 = true) ∧
    (∀ (fuel p n : Nat) (s : State) (old : Block)
       (r : Option Nat × State × List LockEv),
       n ≠ 0 →
       List.lookup (p - HDR) s.blocks = some old →
       old.size_of_block < n →
       MMB.mem_resize fuel (some p) n s = some r →
       attemptsRelock 0 r.2.2 = true) := by
  refine ⟨?_, ?_, ?_⟩
  · intro fuel n s r h
    rcases mmb_alloc_trace fuel n s r h with ⟨_, h0⟩ | h0 <;> rw [h0] <;> rfl
  · intro fuel p s r h
    cases p with
    | none =>
      simp only [MMB.mem_free] at h
      injection h with h
      subst h
      rfl
    | some p0 =>
      rw [mmb_free_trace fuel p0 s r h]
      rfl
  · intro fuel p n s old r hn hl hlt h
    simp only [MMB.mem_resize] at h
    rw [if_neg hn, hl] at h
    simp only at h
    rw [if_neg (by omega : ¬ n ≤ old.size_of_block)] at h
    cases halloc : MMB.mem_alloc fuel n s with
    | none => rw [halloc] at h; exact absurd h (by simp)
    | some ra =>
      obtain ⟨q, s1, t1⟩ := ra
      rw [halloc] at h
      have ht1 : t1 = [LockEv.lock, LockEv.unlock] := by
        rcases mmb_alloc_trace fuel n s (q, s1, t1) halloc with ⟨h0, _⟩ | h0
        · exact absurd h0 hn
        · exact h0
      subst ht1
      cases q with
      | none =>
        injection h with h
        subst h
        rfl
      | some q0 =>
        simp only at h
        split at h
        · exact absurd h (by simp)
        · rename_i s3 t2 hfree
          have ht2 : t2 = [LockEv.lock, LockEv.unlock] :=
            mmb_free_trace fuel p _ (s3, t2) hfree
          subst ht2
          injection h with h
          subst h
          rfl

/-- C9: counterexample to "resize never attempts to re-acquire the lock it
already holds" — the concrete call `mem_resize(a, 100)` on the `part_001`
arena `mmbA1` completes with the mutex-operation trace
`lock; lock; unlock; lock; unlock; unlock`: the inner `mem_alloc` and
`mem_free` each issue their own `lock` while `mem_resize`'s `lock` is still
held. -/
theorem c9_resize_relocks :
    (MMB.mem_resize 50 (some 24) 100 mmbA1).map (fun r => r.2.2) =
      some [LockEv.lock, LockEv.lock, LockEv.unlock, LockEv.lock,
        LockEv.unlock, LockEv.unlock] ∧
    attemptsRelock 0 [LockEv.lock, LockEv.lock, LockEv.unlock, LockEv.lock,
        LockEv.unlock, LockEv.unlock] = true :=
  ⟨by decide, by decide⟩

/-- The completed result of `mem_resize(a, 150)` on `mmbA1` (used to
instantiate `c9_lock_discipline_amended`). -/
def rB9 : Option Nat × State × List LockEv :=
  (MMB.mem_resize 50 (some 24) 150 mmbA1).getD (none, mmbA1, [])

/-- The completed result of `mem_alloc(24)` on the fresh `part_001` arena. -/
def rB9a : Option Nat × State × List LockEv :=
  (MMB.mem_alloc 50 24 mmbInit).getD (none, mmbInit, [])

/-- The completed result of `mem_free(a)` on `mmbA1`. -/
def rB9f : State × List LockEv :=
  (MMB.mem_free 50 (some 24) mmbA1).getD (mmbA1, [])

/-- C9 witness: the amended lock discipline at concrete calls — balanced
traces for `mem_alloc(24)` and `mem_free(a)`, and a re-acquisition attempt
inside `mem_resize(a, 150)`. -/
theorem c9_lock_discipline_amended_witness :
    balancedFrom 0 rB9a.2.2 = true ∧ balancedFrom 0 rB9f.2 = true ∧
    attemptsRelock 0 rB9.2.2 = true :=
  ⟨c9_lock_discipline_amended.1 50 24 mmbInit rB9a rfl,
   c9_lock_discipline_amended.2.1 50 (some 24) mmbA1 rB9f rfl,
   c9_lock_discipline_amended.2.2 50 24 150 mmbA1 ⟨24, false, some 48⟩ rB9
     (by decide) (by decide) (by decide) rfl⟩

/-! ## Claim C5 -/

/-- A failed `memory_manager.c` `mem_alloc` does not change the state: the
scan only reads until it finds a block. -/
theorem mma_alloc_fail_state (fuel n : Nat) (s s1 : State)
    (h : MMA.mem_alloc fuel n s = some (none, s1)) : s1 = s := by
  unfold MMA.mem_alloc at h
  split at h
  · injection h with h
    injection h with h1 h2
    exact h2.symm
  · split at h
    · exact absurd h (by simp)
    · injection h with h
      injection h with h1 h2
      exact h2.symm
    · injection h with h
      injection h with h1 h2
      exact absurd h1 (by simp)

/-- C5: if the internal re-allocation inside `mem_resize(p, n)` fails, the
`memory_manager.c` `mem_resize` returns null and the state — the block
owning `p`, its free flag and all payload bytes — is exactly the pre-call
state. -/
theorem c5_resize_failure_preserves_state (fuel p n : Nat) (s : State)
    (old : Block)
    (h1 : List.lookup (p - HDR) s.blocks = some old)
    (h2 : old.is_free = false)
    (h3 : old.size_of_block < n)
    (hfail : MMA.mem_alloc fuel (ALIGN n) s = some (none, s)) :
    MMA.mem_resize fuel (some p) n s = some (none, s) := by
  have hsz : ¬ ALIGN n ≤ old.size_of_block := by
    have := le_ALIGN n
    omega
  simp only [MMA.mem_resize]
  rw [h1]
  simp only
  rw [if_neg hsz, hfail]

/-- C5 witness: on the arena `sAlloc40` (a single, fully allocated block) the
re-allocation inside `mem_resize(p, 100)` finds no free block, and the call
returns null with the state untouched. -/
theorem c5_resize_failure_preserves_state_witness :
    MMA.mem_resize 50 (some 24) 100 sAlloc40 = some (none, sAlloc40) :=
  c5_resize_failure_preserves_state 50 24 100 sAlloc40 ⟨40, false, none⟩
    (by decide) rfl (by decide) rfl

/-! ## Claim C6 -/

/-- A completed `memory_manager.c` `mem_alloc` never writes payload bytes:
only headers change. -/
theorem mma_alloc_mem (fuel n : Nat) (s : State)
    (r : Option Nat × State)
    (h : MMA.mem_alloc fuel n s = some r) : r.2.mem = s.mem := by
  unfold MMA.mem_alloc at h
  split at h
  · injection h with h
    subst h
    rfl
  · split at h
    · exact absurd h (by simp)
    · injection h with h
      subst h
      rfl
    · injection h with h
      subst h
      rfl

/-- A completed `memory_manager.c` `mem_free` never writes payload bytes:
only headers and the free-list head change. -/
theorem mma_free_mem (fuel : Nat) (b : Option Nat) (s : State) (s1 : State)
    (h : MMA.mem_free fuel b s = some s1) : s1.mem = s.mem := by
  cases b with
  | none =>
    simp only [MMA.mem_free] at h
    injection h with h
    subst h
    rfl
  | some p =>
    simp only [MMA.mem_free] at h
    split at h
    · exact absurd h (by simp)
    · split at h
      · injection h with h
        subst h
        rfl
      · split at h
        · exact absurd h (by simp)
        · injection h with h
          subst h
          rfl

/-- C6: for a live allocation `p` with recorded size `old.size_of_block` and
any request `n` at least that large, a successful
`memory_manager.c` `mem_resize(p, n)` returns a payload whose first
`old.size_of_block` bytes equal the pre-call bytes of `p` — either the same
pointer is returned with all bytes untouched, or `memcpy` moved exactly
those bytes to the new payload before the old block was freed. -/
theorem c6_resize_preserves_data (fuel p n : Nat) (s : State) (old : Block)
    (h1 : List.lookup (p - HDR) s.blocks = some old)
    (h2 : old.is_free = false)
    (h3 : old.size_of_block ≤ n)
    (q : Nat) (s1 : State)
    (h4 : MMA.mem_resize fuel (some p) n s = some (some q, s1))
    (i : Nat) (h5 : i < old.size_of_block) :
    s1.mem (q + i) = s.mem (p + i) := by
  simp only [MMA.mem_resize] at h4
  rw [h1] at h4
  simp only at h4
  by_cases hsz : ALIGN n ≤ old.size_of_block
  · rw [if_pos hsz] at h4
    injection h4 with h4
    injection h4 with hq hs
    subst hs
    cases hq
    rfl
  · rw [if_neg hsz] at h4
    cases halloc : MMA.mem_alloc fuel (ALIGN n) s with
    | none => rw [halloc] at h4; exact absurd h4 (by simp)
    | some ra =>
      obtain ⟨q0, sa⟩ := ra
      rw [halloc] at h4
      cases q0 with
      | none =>
        simp only at h4
        injection h4 with h4
        injection h4 with hq hs
        exact absurd hq (by simp)
      | some q1 =>
        simp only at h4
        split at h4
        · exact absurd h4 (by simp)
        · rename_i s3 hfree
          injection h4 with h4
          injection h4 with hq hs
          injection hq with hq
          have hma : sa.mem = s.mem :=
            mma_alloc_mem fuel (ALIGN n) s (some q1, sa) halloc
          have hmf := mma_free_mem fuel (some p) _ s3 hfree
          rw [← hs, hmf, ← hq]
          simp only
          have hcond : q1 ≤ q1 + i ∧ q1 + i < q1 + old.size_of_block :=
            ⟨Nat.le_add_right q1 i, by omega⟩
          rw [if_pos hcond, hma]
          congr 1
          omega

/-- The completed result of `mem_resize(p, 16)` on `sAlloc8` (used to
instantiate `c6_resize_preserves_data`). -/
def rC6 : Option Nat × State :=
  (MMA.mem_resize 50 (some 24) 16 sAlloc8).getD (none, sAlloc8)

/-- C6 witness: resizing the 8-byte allocation at payload 24 of `sAlloc8` to
16 bytes succeeds with the new payload at 56, and byte 3 of the new payload
equals byte 3 of the old payload. -/
theorem c6_resize_preserves_data_witness :
    rC6.2.mem (56 + 3) = sAlloc8.mem (24 + 3) :=
  c6_resize_preserves_data 50 24 16 sAlloc8 ⟨8, false, some 32⟩
    (by decide) rfl (by decide) 56 rC6.2 rfl 3 (by decide)

/-! ## Claim C10 -/

/-- When the `memory_manager.c` free-list scan hands out a payload, the block
owning it is recorded allocated with a size at least the (aligned) request:
the split shrinks the block to exactly the request, and an unsplit block
keeps its size, which the search condition bounds from below. -/
theorem mma_allocScan_found (fuel sz : Nat) :
    ∀ (cur : Option Nat) (bl : List (Nat × Block))
      (p : Nat) (bl1 : List (Nat × Block)),
      MMA.allocScan fuel cur sz bl = some (some (p, bl1)) →
      ∃ blk : Block, List.lookup (p - HDR) bl1 = some blk ∧
        blk.is_free = false ∧ sz ≤ blk.size_of_block := by
  induction fuel with
  | zero =>
    intro cur bl p bl1 h
    cases cur with
    | none => exact absurd h (by simp [MMA.allocScan])
    | some b => exact absurd h (by simp [MMA.allocScan])
  | succ f ih =>
    intro cur bl p bl1 h
    cases cur with
    | none => exact absurd h (by simp [MMA.allocScan])
    | some b =>
      simp only [MMA.allocScan] at h
      split at h
      · exact absurd h (by simp)
      · rename_i cb hlk
        split at h
        · split at h
          · injection h with h
            injection h with h
            injection h with hp hbl
            refine ⟨⟨sz, false, some (b + HDR + sz)⟩, ?_, rfl, Nat.le_refl sz⟩
            rw [← hbl, ← hp, Nat.add_sub_cancel]
            exact lookup_hwrite_self b _ _
          · injection h with h
            injection h with h
            injection h with hp hbl
            rename_i hguard hsplit
            refine ⟨⟨cb.size_of_block, false, cb.next_block⟩, ?_, rfl, ?_⟩
            · rw [← hbl, ← hp, Nat.add_sub_cancel]
              exact lookup_hwrite_self b _ _
            · have := of_decide_eq_true (Bool.and_elim_right hguard)
              exact this
        · exact ih cb.next_block bl p bl1 h

/-- C10: counterexample to "every alloc(size) with size > 0 rounds the
request up" — the `ALIGN` macro is computed in `size_t`, so for
`size = 2^64 - 1` the sum `size + 7` wraps and the macro yields 0, below the
request; the zero-size rejection has already passed, the scan then accepts
any free block (`size_of_block >= 0`), and `mem_alloc` on a fresh 64-byte
arena succeeds handing out payload 24 whose block records capacity 0. -/
theorem c10_alloc_wraps :
    ALIGN64 (2 ^ 64 - 1) < 2 ^ 64 - 1 ∧
    ALIGN64 (2 ^ 64 - 1) = 0 ∧
    (MMA64.mem_alloc 50 (2 ^ 64 - 1) (MMA64.mem_init 64)).map Prod.fst =
      some (some 24) ∧
    (MMA64.mem_alloc 50 (2 ^ 64 - 1) (MMA64.mem_init 64)).map
        (fun r => List.lookup 0 r.2.blocks) =
      some (some ⟨0, false, some 24⟩) :=
  ⟨by decide, by decide, by decide, by decide⟩

/-- C10 (amended): for every request `n` with `0 < n` and `n + 7 < 2^64`
(so the macro's `size_t` addition does not wrap), a `memory_manager.c`
`mem_alloc(n)` first rounds `n` up to the next multiple of
`sizeof(void*) = 8`, and the block that owns the returned payload is
recorded allocated with `size_of_block >= ALIGN(n) >= n`; for the seven
top values of `size_t` the macro wraps to 0 and a successful call returns a
zero-capacity block (`c10_alloc_wraps`). -/
theorem c10_alloc_aligns_request (fuel n : Nat) (s : State) (hn : n ≠ 0)
    (hw : n + 7 < 2 ^ 64) (p : Nat) (s1 : State)
    (h : MMA64.mem_alloc fuel n s = some (some p, s1)) :
    ALIGN64 n % 8 = 0 ∧ n ≤ ALIGN64 n ∧
    ∃ blk : Block, List.lookup (p - HDR) s1.blocks = some blk ∧
      blk.is_free = false ∧ ALIGN64 n ≤ blk.size_of_block := by
  refine ⟨ALIGN64_mod_eight n, ?_, ?_⟩
  · rw [ALIGN64_eq_ALIGN hw]
    exact le_ALIGN n
  unfold MMA64.mem_alloc at h
  rw [if_neg hn] at h
  cases hscan : MMA.allocScan fuel s.free_list (ALIGN64 n) s.blocks with
  | none => rw [hscan] at h; exact absurd h (by simp)
  | some o =>
    rw [hscan] at h
    cases o with
    | none =>
      simp only at h
      injection h with h
      injection h with hp hs
      exact absurd hp (by simp)
    | some v =>
      obtain ⟨p0, bl1⟩ := v
      simp only at h
      injection h with h
      injection h with hp hs
      injection hp with hp
      obtain ⟨blk, hb1, hb2, hb3⟩ :=
        mma_allocScan_found fuel (ALIGN64 n) s.free_list s.blocks p0 bl1 hscan
      refine ⟨blk, ?_, hb2, hb3⟩
      rw [← hs, ← hp]
      exact hb1

/-- C10 witness: `mem_alloc(3)` on a fresh 64-byte arena returns payload 24;
the request is rounded up to `ALIGN(3) = 8` and the owning block is recorded
allocated with exactly 8 bytes. -/
theorem c10_alloc_aligns_request_witness :
    ALIGN64 3 % 8 = 0 ∧ 3 ≤ ALIGN64 3 ∧
    ∃ blk : Block, List.lookup (24 - HDR) sAlloc3.blocks = some blk ∧
      blk.is_free = false ∧ ALIGN64 3 ≤ blk.size_of_block :=
  c10_alloc_aligns_request 50 3 (MMA64.mem_init 64) (by decide) (by decide)
    24 sAlloc3 rfl
